import Mathlib

/-!
Verification development for the `time-tracker` terminal application.

The Rust sources are shallowly embedded:

* text is modelled as `List Char` (abbreviated `Str`), so that every definition
  is executable and kernel-reducible;
* `chrono::NaiveDateTime` is modelled by the record `DateTime`; timestamp
  subtraction and addition go through seconds-since-epoch using the standard
  proleptic-Gregorian civil-day conversion, exactly as chrono computes them;
* the two strftime formats the program uses — the database format
  `"%d-%m-%Y %H:%M:%S"` (the `date_format` constant of `AppManager`) and the
  display format `"%d %b %y %H:%M:%S"` (the constants in
  `Session::set_field_from_string`) — are embedded as concrete formatting and
  parsing functions that follow chrono's parser: a numeric item skips leading
  whitespace and then greedily reads at most `width` digits, a literal must
  match exactly, a whitespace item skips any run of whitespace, `%b` matches a
  three-letter month name case-insensitively, the whole input must be consumed,
  and the parsed fields must resolve to a valid calendar date and time;
* `usize` arithmetic uses the release-build (wrapping) semantics, written out
  as arithmetic modulo 2^64 where the code can underflow;
* file contents are modelled at the line level: the program compacts (strips
  blank lines from) both logs after every append, so a persisted log is the
  list of its non-empty lines;
* panics (`expect`, `unwrap`, out-of-bounds indexing) are modelled by
  `Except String` / `Option` results.
-/

set_option maxRecDepth 8000

abbrev Str := List Char

/-- Whitespace test used by `str::trim` and by chrono's whitespace items
(restricted to the ASCII whitespace characters, which are the only ones this
program's data can contain). -/
def isWs (c : Char) : Bool :=
  c = ' ' || c = '\t' || c = '\n' || c = '\r'

/-- Rust `str::trim`: drop leading and trailing whitespace. -/
def rustTrim (s : Str) : Str :=
  ((s.dropWhile isWs).reverse.dropWhile isWs).reverse

/-- Rust `str::split(sep)`: split on every occurrence of `sep`; always returns
at least one (possibly empty) field. -/
def splitOnChar (sep : Char) : Str → List Str
  | [] => [[]]
  | c :: rest =>
    if c = sep then [] :: splitOnChar sep rest
    else
      match splitOnChar sep rest with
      | [] => [[c]]
      | t :: ts => (c :: t) :: ts

/-- The character for a single decimal digit. -/
def digitChar (n : Nat) : Char := Char.ofNat (48 + n)

/-- Decimal digits of a natural number, most significant first
(fuel-based so that it is structurally recursive and kernel-reducible). -/
def natToCharsAux : Nat → Nat → Str
  | 0, _ => []
  | fuel + 1, n =>
    if n < 10 then [digitChar n]
    else natToCharsAux fuel (n / 10) ++ [digitChar (n % 10)]

def natToChars (n : Nat) : Str := natToCharsAux (n + 1) n

/-- Rust/chrono `{:02}`-style zero padding of a natural number to two digits. -/
def pad2 (n : Nat) : Str := if n < 10 then ['0', digitChar n] else natToChars n

/-- chrono `%Y`-style zero padding of a year to at least four digits. -/
def pad4 (n : Nat) : Str :=
  if n < 10 then '0' :: '0' :: '0' :: [digitChar n]
  else if n < 100 then '0' :: '0' :: natToChars n
  else if n < 1000 then '0' :: natToChars n
  else natToChars n

/-- Rust `{:02}` on a possibly negative `i64` (used for the cached duration
field): the sign is part of the width, so negative values are printed as the
sign followed by the digits. -/
def intPad2 (i : Int) : Str :=
  if 0 ≤ i then pad2 i.toNat else '-' :: natToChars (-i).toNat

/-- Value of a list of decimal digit characters, most significant first. -/
def digitsVal (ds : Str) : Nat :=
  ds.foldl (fun a c => 10 * a + (c.toNat - 48)) 0

/-- Greedily take at most `width` leading decimal digits. -/
def takeDigits : Nat → Str → Str × Str
  | 0, s => ([], s)
  | _ + 1, [] => ([], [])
  | width + 1, c :: rest =>
    if c.isDigit then
      let (ds, r) := takeDigits width rest
      (c :: ds, r)
    else ([], c :: rest)

/-- chrono numeric item: skip leading whitespace, then read between one and
`width` digits greedily; fail if no digit is present. -/
def readNum (width : Nat) (s : Str) : Option (Nat × Str) :=
  match takeDigits width (s.dropWhile isWs) with
  | ([], _) => none
  | (ds, rest) => some (digitsVal ds, rest)

/-- chrono literal item: the next input character must be exactly `c`. -/
def expectChar (c : Char) (s : Str) : Option Str :=
  match s with
  | c1 :: rest => if c1 = c then some rest else none
  | [] => none

/-- Model of `chrono::NaiveDateTime`: a proleptic-Gregorian calendar date
together with a time of day. -/
structure DateTime where
  year : Int
  month : Nat
  day : Nat
  hour : Nat
  minute : Nat
  second : Nat
deriving DecidableEq

def isLeap (y : Int) : Bool := (y % 4 == 0 && y % 100 != 0) || y % 400 == 0

def daysInMonth (y : Int) (m : Nat) : Nat :=
  match m with
  | 1 => 31
  | 2 => if isLeap y then 29 else 28
  | 3 => 31
  | 4 => 30
  | 5 => 31
  | 6 => 30
  | 7 => 31
  | 8 => 31
  | 9 => 30
  | 10 => 31
  | 11 => 30
  | 12 => 31
  | _ => 0

/-- Calendar-date validity, as checked by `NaiveDate` construction. -/
def dateOk (dt : DateTime) : Bool :=
  1 ≤ dt.month && dt.month ≤ 12 && 1 ≤ dt.day && dt.day ≤ daysInMonth dt.year dt.month

/-- Time-of-day validity, as checked by `NaiveTime` construction. -/
def timeOk (dt : DateTime) : Bool :=
  dt.hour < 24 && dt.minute < 60 && dt.second < 60

def dtOk (dt : DateTime) : Bool := dateOk dt && timeOk dt

/-- Validity bound used in the general theorems: a real calendar datetime whose
year the four-digit `%Y` field represents exactly. -/
def validDT (dt : DateTime) : Bool := dtOk dt && 0 ≤ dt.year && dt.year < 10000

/-- Days since 1970-01-01 of a civil date (Hinnant's `days_from_civil`, the
algorithm underlying chrono's date arithmetic; `/` is Rust/C++ truncated
division, which matches Lean's `Int` division). -/
def daysFromCivil (y : Int) (m d : Nat) : Int :=
  let y1 : Int := if m ≤ 2 then y - 1 else y
  let era : Int := (if 0 ≤ y1 then y1 else y1 - 399) / 400
  let yoe : Int := y1 - era * 400
  let mp : Int := if 2 < m then (m : Int) - 3 else (m : Int) + 9
  let doy : Int := (153 * mp + 2) / 5 + (d : Int) - 1
  let doe : Int := yoe * 365 + yoe / 4 - yoe / 100 + doy
  era * 146097 + doe - 719468

/-- Inverse of `daysFromCivil` (Hinnant's `civil_from_days`). -/
def civilFromDays (z0 : Int) : Int × Nat × Nat :=
  let z := z0 + 719468
  let era : Int := (if 0 ≤ z then z else z - 146096) / 146097
  let doe : Int := z - era * 146097
  let yoe : Int := (doe - doe / 1460 + doe / 36524 - doe / 146096) / 365
  let y : Int := yoe + era * 400
  let doy : Int := doe - (365 * yoe + yoe / 4 - yoe / 100)
  let mp : Int := (5 * doy + 2) / 153
  let d : Int := doy - (153 * mp + 2) / 5 + 1
  let m : Int := if mp < 10 then mp + 3 else mp - 9
  (if m ≤ 2 then y + 1 else y, m.toNat, d.toNat)

def toSecs (dt : DateTime) : Int :=
  86400 * daysFromCivil dt.year dt.month dt.day
    + 3600 * (dt.hour : Int) + 60 * (dt.minute : Int) + (dt.second : Int)

def fromSecs (t : Int) : DateTime :=
  let days := t.fdiv 86400
  let secs := (t % 86400).toNat
  let c := civilFromDays days
  ⟨c.1, c.2.1, c.2.2, secs / 3600, secs % 3600 / 60, secs % 60⟩

/-- chrono `NaiveDateTime` subtraction, in whole seconds. -/
def dtSub (a b : DateTime) : Int := toSecs a - toSecs b

/-- chrono `NaiveDateTime + Duration`. -/
def dtAdd (dt : DateTime) (delta : Int) : DateTime := fromSecs (toSecs dt + delta)

/-- chrono `%H:%M:%S` formatting. -/
def formatHms (dt : DateTime) : Str :=
  pad2 dt.hour ++ ':' :: pad2 dt.minute ++ ':' :: pad2 dt.second

/-- chrono `%d-%m-%Y` formatting (the database date format). -/
def formatDbDate (dt : DateTime) : Str :=
  pad2 dt.day ++ '-' :: pad2 dt.month ++ '-' :: pad4 dt.year.toNat

/-- chrono `%b` month abbreviation. -/
def monthAbbr (m : Nat) : Str :=
  match m with
  | 1 => ['J', 'a', 'n']
  | 2 => ['F', 'e', 'b']
  | 3 => ['M', 'a', 'r']
  | 4 => ['A', 'p', 'r']
  | 5 => ['M', 'a', 'y']
  | 6 => ['J', 'u', 'n']
  | 7 => ['J', 'u', 'l']
  | 8 => ['A', 'u', 'g']
  | 9 => ['S', 'e', 'p']
  | 10 => ['O', 'c', 't']
  | 11 => ['N', 'o', 'v']
  | 12 => ['D', 'e', 'c']
  | _ => ['?', '?', '?']

/-- chrono `%d %b %y` formatting (the display date format of
`Session::get_date_string`). -/
def formatUiDate (dt : DateTime) : Str :=
  pad2 dt.day ++ ' ' :: monthAbbr dt.month ++ ' ' :: pad2 (dt.year % 100).toNat

/-- chrono `%b` parsing: three input characters matched case-insensitively
against the month-name table. -/
def monthFromName (c1 c2 c3 : Char) : Option Nat :=
  let l1 := c1.toLower
  let l2 := c2.toLower
  let l3 := c3.toLower
  if l1 = 'j' ∧ l2 = 'a' ∧ l3 = 'n' then some 1
  else if l1 = 'f' ∧ l2 = 'e' ∧ l3 = 'b' then some 2
  else if l1 = 'm' ∧ l2 = 'a' ∧ l3 = 'r' then some 3
  else if l1 = 'a' ∧ l2 = 'p' ∧ l3 = 'r' then some 4
  else if l1 = 'm' ∧ l2 = 'a' ∧ l3 = 'y' then some 5
  else if l1 = 'j' ∧ l2 = 'u' ∧ l3 = 'n' then some 6
  else if l1 = 'j' ∧ l2 = 'u' ∧ l3 = 'l' then some 7
  else if l1 = 'a' ∧ l2 = 'u' ∧ l3 = 'g' then some 8
  else if l1 = 's' ∧ l2 = 'e' ∧ l3 = 'p' then some 9
  else if l1 = 'o' ∧ l2 = 'c' ∧ l3 = 't' then some 10
  else if l1 = 'n' ∧ l2 = 'o' ∧ l3 = 'v' then some 11
  else if l1 = 'd' ∧ l2 = 'e' ∧ l3 = 'c' then some 12
  else none

/-- chrono `NaiveDateTime::parse_from_str` with format `"%d-%m-%Y %H:%M:%S"`
(the `date_format` constant of `AppManager`, used by
`DatabaseHandler::parse_sessions` and `get_current_time`). -/
def parseDbDateTime (s : Str) : Option DateTime :=
  match readNum 2 s with
  | none => none
  | some (d, s1) =>
  match expectChar '-' s1 with
  | none => none
  | some s2 =>
  match readNum 2 s2 with
  | none => none
  | some (mo, s3) =>
  match expectChar '-' s3 with
  | none => none
  | some s4 =>
  match readNum 4 s4 with
  | none => none
  | some (y, s5) =>
  match readNum 2 (s5.dropWhile isWs) with
  | none => none
  | some (h, s6) =>
  match expectChar ':' s6 with
  | none => none
  | some s7 =>
  match readNum 2 s7 with
  | none => none
  | some (mi, s8) =>
  match expectChar ':' s8 with
  | none => none
  | some s9 =>
  match readNum 2 s9 with
  | none => none
  | some (sec, s10) =>
    if s10 = [] then
      let dt : DateTime := ⟨(y : Int), mo, d, h, mi, sec⟩
      if dtOk dt then some dt else none
    else none

/-- chrono `NaiveDateTime::parse_from_str` with format `"%d %b %y %H:%M:%S"`
(the `datetime_format` of `Session::set_field_from_string`). A two-digit `%y`
year resolves to 2000–2068 for values 0–68 and to 1969–1999 for 69–99. -/
def parseUiDateTime (s : Str) : Option DateTime :=
  match readNum 2 s with
  | none => none
  | some (d, s0) =>
  match s0.dropWhile isWs with
  | c1 :: c2 :: c3 :: s1 =>
    match monthFromName c1 c2 c3 with
    | none => none
    | some mo =>
    match readNum 2 s1 with
    | none => none
    | some (yy, s2) =>
    match readNum 2 s2 with
    | none => none
    | some (h, s3) =>
    match expectChar ':' s3 with
    | none => none
    | some s4 =>
    match readNum 2 s4 with
    | none => none
    | some (mi, s5) =>
    match expectChar ':' s5 with
    | none => none
    | some s6 =>
    match readNum 2 s6 with
    | none => none
    | some (sec, s7) =>
      if s7 = [] then
        let y : Int := if yy < 69 then 2000 + (yy : Int) else 1900 + (yy : Int)
        let dt : DateTime := ⟨y, mo, d, h, mi, sec⟩
        if dtOk dt then some dt else none
      else none
  | _ => none

/-! ## The session domain model (`session.rs`) -/

/-- `session.rs::Session`. -/
structure Session where
  description : Str
  tag : Str
  start : DateTime
  end_ : Option DateTime
deriving DecidableEq

def Session.is_running (s : Session) : Bool := s.end_.isNone

/-- `Session::get_date_string` (`"%d %b %y"` of `start`). -/
def Session.get_date_string (s : Session) : Str := formatUiDate s.start

/-- `Session::get_start_time_string` (`"%H:%M:%S"` of `start`). -/
def Session.get_start_time_string (s : Session) : Str := formatHms s.start

/-- `Session::get_end_time_string`. -/
def Session.get_end_time_string (s : Session) : Option Str := s.end_.map formatHms

/-- `Session::construct_db_string`, specialised to the only arguments the
program passes: `value_separator = ';'` and
`date_format = "%d-%m-%Y %H:%M:%S"`. The `none` result models the
`expect("Cannot export ongoing session.")` abort taken when `end` is `None`.
The duration components mirror `chrono::Duration`: `num_hours`/`num_minutes`
truncate toward zero, and the code subtracts `hours * 60` from the minute
count and `hours * 3600 + minutes * 60` from the second count. -/
def construct_db_string (s : Session) : Option Str :=
  match s.end_ with
  | none => none
  | some e =>
    let dur : Int := dtSub e s.start
    let hours : Int := dur / 3600
    let minutes : Int := dur / 60 - hours * 60
    let seconds : Int := dur - hours * 3600 - minutes * 60
    some (formatDbDate s.start ++ ';' :: s.description ++ ';' :: s.tag ++ ';' ::
          formatHms s.start ++ ';' :: formatHms e ++ ';' ::
          (intPad2 hours ++ ':' :: intPad2 minutes ++ ':' :: intPad2 seconds))

/-- The field discriminants matched by `session.rs` (`get_field_as_string` /
`set_field_from_string` match the variants without payloads). -/
inductive SessionFieldName
  | date
  | description
  | tag
  | start
  | end_
deriving DecidableEq

/-- `Session::set_field_from_string`. Note the constructed datetime strings:
for Date the string is `"{start_time_string} {new_date_string}"` and for
Start/End it is `"{value} {date_string}"`, while the parse format is
`"%d %b %y %H:%M:%S"` (date first). -/
def set_field_from_string (s : Session) (field : SessionFieldName) (value : Str) : Session :=
  match field with
  | .date =>
    let newDatetimeString := s.get_start_time_string ++ ' ' :: value
    match parseUiDateTime newDatetimeString with
    | none => s
    | some newDate =>
      let delta := dtSub newDate s.start
      let s1 := { s with start := dtAdd s.start delta }
      match s1.end_ with
      | none => s1
      | some e => { s1 with end_ := some (dtAdd e delta) }
  | .description =>
    let d := rustTrim value
    if d = [] then s else { s with description := d }
  | .tag =>
    let t := rustTrim value
    if t = [] then s else { s with tag := t }
  | .start =>
    let str := value ++ ' ' :: s.get_date_string
    match parseUiDateTime str with
    | none => s
    | some newStart =>
      let delta := dtSub newStart s.start
      { s with start := dtAdd s.start delta }
  | .end_ =>
    let str := value ++ ' ' :: s.get_date_string
    match parseUiDateTime str with
    | none => s
    | some newEnd =>
      match s.end_ with
      | none => s
      | some e => { s with end_ := some (dtAdd e (dtSub newEnd s.start)) }

/-! ## The store (`database_handler.rs`) -/

/-- The two persisted logs, at the line level, plus whether the temp file used
by `delete_session` already exists. Both logs are compacted (blank lines
stripped) after every append, so in every state the program can observe, a
log is exactly the list of its non-empty lines. -/
structure Database where
  sessionsLines : List Str
  tagsLines : List Str
  sessionsTempExists : Bool
deriving DecidableEq

/-- `DatabaseHandler::export_session`: append `"\n" + line` and compact.
At the line level (for a non-empty `line`) this appends one line. -/
def export_session (db : Database) (line : Str) : Database :=
  { db with sessionsLines := db.sessionsLines ++ [line] }

/-- `DatabaseHandler::export_tag`: append `"\n" + tag` and compact. -/
def export_tag (db : Database) (tag : Str) : Database :=
  { db with tagsLines := db.tagsLines ++ [tag] }

/-- The serialization loop of `DatabaseHandler::export_all_sessions`
(truncate, then write every session's `construct_db_string` line in order);
`none` models the abort hit at the first running session. -/
def export_all_sessions : List Session → Option (List Str)
  | [] => some []
  | s :: rest =>
    match construct_db_string s with
    | none => none
    | some line =>
      match export_all_sessions rest with
      | none => none
      | some lines => some (line :: lines)

/-- `DatabaseHandler::delete_session`. The source first reads all lines and
calls `Vec::remove(session_index)` — which panics (`none`) when the index is
out of bounds — and only then tries to create the temp file with
`create_new(true)` inside an `if let Ok(...)`: when the temp file already
exists that open fails and the whole write-and-rename block is silently
skipped, leaving the sessions file untouched and returning normally. -/
def delete_session (db : Database) (idx : Nat) : Option Database :=
  if idx < db.sessionsLines.length then
    if db.sessionsTempExists then some db
    else some { db with sessionsLines := db.sessionsLines.eraseIdx idx }
  else none

/-- One iteration of `DatabaseHandler::parse_sessions`: split the line on the
separator, index fields 0–4 (panicking when fewer fields are present), parse
`"{date} {start}"` and `"{date} {end}"` with the database format. -/
def parseSessionLine (line : Str) : Except String Session :=
  let fields := splitOnChar ';' line
  match fields[0]?, fields[1]?, fields[2]?, fields[3]?, fields[4]? with
  | some date, some description, some tag, some start, some end_ =>
    match parseDbDateTime (date ++ ' ' :: start) with
    | none => .error "Error parsing start date."
    | some startDate =>
      match parseDbDateTime (date ++ ' ' :: end_) with
      | none => .error "Error parsing end date."
      | some endDate => .ok ⟨description, tag, startDate, some endDate⟩
  | _, _, _, _, _ => .error "index out of bounds"

/-- `DatabaseHandler::parse_sessions`: parse every line; an empty result is
reported as `None`. -/
def parse_sessions (lines : List Str) : Except String (Option (List Session)) := do
  let parsed ← lines.mapM parseSessionLine
  if parsed.isEmpty then pure none else pure (some parsed)

/-! ## UI state (`app_state.rs`) and keys (`control_keys.rs`) -/

inductive ConfirmOpen
  | yes
  | no
deriving DecidableEq

inductive TagInputState
  | select
  | new
  | delete (c : ConfirmOpen)
deriving DecidableEq

inductive SessionInputState
  | description (c : ConfirmOpen)
  | tag (t : TagInputState)
deriving DecidableEq

inductive SessionFieldEditState
  | browse
  | editing
deriving DecidableEq

inductive SessionEditState
  | browse
  | editFields (s : SessionFieldEditState)
  | confirm
deriving DecidableEq

inductive SessionModifyState
  | edit (s : SessionEditState)
  | cont (c : ConfirmOpen)
  | delete (c : ConfirmOpen)
deriving DecidableEq

inductive CommandState
  | idle
  | new (s : SessionInputState)
  | modify (m : SessionModifyState)
  | end_
  | quitting
deriving DecidableEq

/-- `app_state.rs::SessionField` (the edit-buffer field cursor with the
payload being edited). -/
inductive SessionField
  | date (v : DateTime)
  | description (v : Str)
  | tag (v : Str)
  | start (v : DateTime)
  | end_ (v : Option DateTime)
  | none
deriving DecidableEq

/-- `crossterm::event::KeyCode`, restricted to the variants the program
matches. -/
inductive KeyCode
  | char (c : Char)
  | enter
  | tab
  | up
  | down
  | left
  | right
  | backspace
  | esc
deriving DecidableEq

def KEY_NEW : KeyCode := .char 'n'
def KEY_DELETE : KeyCode := .char 'd'
def KEY_END : KeyCode := .char ' '
def KEY_EDIT : KeyCode := .char 'e'
/-- `KEY_COPY` in `control_keys.rs`; `main.rs` refers to it as `KEY_CONTINUE`. -/
def KEY_CONTINUE : KeyCode := .char 'c'
def KEY_QUIT : KeyCode := .char 'q'
def KEY_ENTER : KeyCode := .enter
def KEY_TAB : KeyCode := .tab
def KEY_YES : KeyCode := .char 'y'
def KEY_NO : KeyCode := .char 'n'
def KEY_UP : KeyCode := .up
def KEY_DOWN : KeyCode := .down
def KEY_LEFT : KeyCode := .left
def KEY_RIGHT : KeyCode := .right
def KEY_BACKSPACE : KeyCode := .backspace
def KEY_ESCAPE : KeyCode := .esc

/-! ## The application manager (`main.rs`, fields shared with
`app_manager.rs`) -/

/-- The `AppManager` struct, without the external collaborators
(`renderer`, `version`) and with the `DatabaseHandler` replaced by the
database state it owns. `value_separator` and `date_format` are compile-time
constants (`';'` and `"%d-%m-%Y %H:%M:%S"`) baked into the serializers. -/
structure AppManager where
  running : Bool
  tags : List Str
  temp_tag_index : Nat
  selected_session_index : Nat
  selected_session_field : SessionField
  selected_datetime_segment : Nat
  selected_tag_index : Nat
  sessions : List Session
  state : CommandState
  description_buffer : Str
  tag_buffer : Str
  session_edit_buffer : Option Session
  db : Database
deriving DecidableEq

/-- `usize` subtraction as compiled in release mode: wrapping modulo 2^64
(`sessions.len() - 1` underflows when the list is empty). -/
def wrapSub (a b : Nat) : Nat := (a + 2 ^ 64 - b) % 2 ^ 64

namespace AppManager

/-- `get_index_of_tag` without the final `expect`: `none` models the
"Failed to retrieve tag index." panic. -/
def get_index_of_tag (m : AppManager) (tag : Str) : Option Nat :=
  m.tags.findIdx? (fun t => decide (t = tag))

/-- `try_start_new_session`; `now` stands for `get_current_time()` (the wall
clock truncated to seconds, which the source formats and reparses through the
database format). -/
def try_start_new_session (m : AppManager) (now : DateTime) : AppManager :=
  let m := { m with description_buffer := rustTrim m.description_buffer }
  match m.tags[m.selected_tag_index]? with
  | none => m
  | some selectedTag =>
    if m.description_buffer = [] then m
    else
      { m with
        sessions := m.sessions ++ [⟨m.description_buffer, selectedTag, now, none⟩],
        description_buffer := [] }

/-- `try_store_tag` (identical in `main.rs` and `app_manager.rs`). -/
def try_store_tag (m : AppManager) : AppManager :=
  let m := { m with tag_buffer := rustTrim m.tag_buffer }
  if m.tag_buffer = [] ∨ m.tag_buffer ∈ m.tags then m
  else
    { m with
      tags := m.tags ++ [m.tag_buffer],
      db := export_tag m.db m.tag_buffer,
      selected_tag_index := m.tags.length,
      tag_buffer := [] }

def is_last_session_still_running (m : AppManager) : Bool :=
  match m.sessions.getLast? with
  | some last => last.is_running
  | none => false

/-- `end_running_session`. -/
def end_running_session (m : AppManager) (now : DateTime) : Except String AppManager :=
  match m.sessions.getLast? with
  | none => .ok m
  | some last =>
    if last.is_running then
      let last := { last with end_ := some now }
      match construct_db_string last with
      | none => .error "Cannot export ongoing session."
      | some line =>
        .ok { m with
              sessions := m.sessions.dropLast ++ [last],
              db := export_session m.db line }
    else .ok m

/-- `delete_selected_session`: the store delete (which skips running
sessions) runs before the unconditional in-memory removal. -/
def delete_selected_session (m : AppManager) : Except String AppManager :=
  if m.sessions = [] then .ok m
  else
    let dbStep : Except String Database :=
      match m.sessions[m.selected_session_index]? with
      | some s =>
        if s.is_running then .ok m.db
        else
          match delete_session m.db m.selected_session_index with
          | some db => .ok db
          | none => .error "Vec::remove index out of bounds"
      | none => .ok m.db
    match dbStep with
    | .error e => .error e
    | .ok db =>
      if m.selected_session_index < m.sessions.length then
        .ok { m with db := db, sessions := m.sessions.eraseIdx m.selected_session_index }
      else .error "Vec::remove index out of bounds"

/-- `continue_selected_session` (named `start_new_session_based_on_selected`
in `app_manager.rs`, same body): refuses only when the *selected* session is
running, then copies its description and tag and calls
`try_start_new_session`. -/
def continue_selected_session (m : AppManager) (now : DateTime) : Except String AppManager :=
  match m.sessions[m.selected_session_index]? with
  | none => .ok m
  | some s =>
    if s.is_running then .ok m
    else
      match m.get_index_of_tag s.tag with
      | none => .error "Failed to retrieve tag index."
      | some tagIndex =>
        .ok (try_start_new_session
              { m with description_buffer := s.description, selected_tag_index := tagIndex }
              now)

def session_buffer_has_pending_changes (m : AppManager) : Bool :=
  match m.sessions[m.selected_session_index]?, m.session_edit_buffer with
  | some sel, some ed => decide (sel ≠ ed)
  | _, _ => false

/-- The first half of `apply_changes_to_session`: when a session is selected
and an edit buffer exists, copy the buffer's four fields onto the selected
session. -/
def write_buffer_to_selected (m : AppManager) : AppManager :=
  match m.sessions[m.selected_session_index]?, m.session_edit_buffer with
  | some _, some ed =>
    { m with sessions := m.sessions.set m.selected_session_index ⟨ed.description, ed.tag, ed.start, ed.end_⟩ }
  | _, _ => m

/-- `apply_changes_to_session` as in `main.rs` (v0.3.4): copy the edit buffer
onto the selected session, then unconditionally rewrite the whole persisted
log with `export_all_sessions`. -/
def apply_changes_to_session (m : AppManager) : Except String AppManager :=
  let m := write_buffer_to_selected m
  match export_all_sessions m.sessions with
  | none => .error "Cannot export ongoing session."
  | some lines => .ok { m with db := { m.db with sessionsLines := lines } }

/-- `apply_changes_to_session` as in `app_manager.rs` (v0.4.6): identical
except that the full rewrite is performed only when the resulting session is
not running, and nothing at all happens without a selected session and an
edit buffer. -/
def apply_changes_to_session_v046 (m : AppManager) : Except String AppManager :=
  match m.sessions[m.selected_session_index]?, m.session_edit_buffer with
  | some _, some ed =>
    let updated : Session := ⟨ed.description, ed.tag, ed.start, ed.end_⟩
    let m := { m with sessions := m.sessions.set m.selected_session_index updated }
    if updated.is_running then .ok m
    else
      match export_all_sessions m.sessions with
      | none => .error "Cannot export ongoing session."
      | some lines => .ok { m with db := { m.db with sessionsLines := lines } }
  | _, _ => .ok m

end AppManager

/-- Modelled from the spec: `Session::set_field` is called by
`store_modified_field_to_session_buffer` (`main.rs` line 297,
`app_manager.rs` line 282) but its definition is missing from `session.rs`
in this snapshot. Spec section 4.4 (`apply_field_edit`): for Date the delta
between the new and old start timestamp shifts both start and end; for
Description/Tag the value is trimmed and empty results are rejected; for
Start/End the value replaces the timestamp directly. -/
def Session.set_field (s : Session) (f : SessionField) : Session :=
  match f with
  | .date v =>
    let delta := dtSub v s.start
    { s with start := dtAdd s.start delta, end_ := s.end_.map (fun e => dtAdd e delta) }
  | .description v =>
    let d := rustTrim v
    if d = [] then s else { s with description := d }
  | .tag v =>
    let t := rustTrim v
    if t = [] then s else { s with tag := t }
  | .start v => { s with start := v }
  | .end_ v => { s with end_ := v }
  | .none => s

namespace AppManager

def store_modified_field_to_session_buffer (m : AppManager) : AppManager :=
  match m.session_edit_buffer with
  | some s => { m with session_edit_buffer := some (s.set_field m.selected_session_field) }
  | none => m

/-- `copy_selected_session_to_buffer` as in `main.rs` (the `app_manager.rs`
variant additionally syncs `temp_tag_index`). -/
def copy_selected_session_to_buffer (m : AppManager) : AppManager :=
  match m.sessions[m.selected_session_index]? with
  | some s =>
    { m with session_edit_buffer := some s, selected_session_field := .date s.start }
  | none => m

def increment_selected_session_field (m : AppManager) : AppManager :=
  match m.session_edit_buffer with
  | none => m
  | some b =>
    { m with selected_session_field :=
        match m.selected_session_field with
        | .date _ => .description b.description
        | .description _ => .tag b.tag
        | .tag _ => .start b.start
        | .start _ | .end_ _ => .end_ b.end_
        | .none => .none }

def decrement_selected_session_field (m : AppManager) : AppManager :=
  match m.session_edit_buffer with
  | none => m
  | some b =>
    { m with selected_session_field :=
        match m.selected_session_field with
        | .date _ | .description _ => .date b.start
        | .tag _ => .description b.description
        | .start _ => .tag b.tag
        | .end_ _ => .start b.start
        | .none => .none }

/-- The tag-index resync performed after a field-cursor move when the cursor
lands on the Tag field (`main.rs` lines 551–555 and 561–565); the `unwrap` on
the edit buffer and the `expect` of `get_index_of_tag` are modelled as
errors. -/
def syncTagIndexIfTagField (m : AppManager) : Except String AppManager :=
  match m.selected_session_field with
  | .tag _ =>
    match m.session_edit_buffer with
    | none => .error "unwrap on None session_edit_buffer"
    | some b =>
      match m.get_index_of_tag b.tag with
      | none => .error "Failed to retrieve tag index."
      | some i => .ok { m with temp_tag_index := i }
  | _ => .ok m

end AppManager

/-! ## The event loop (`main.rs::update`) -/

open AppManager in
/-- `main.rs::update`, one key event. `now` stands for the wall clock read by
`get_current_time()` whenever the handled branch needs it. Branches are
translated in the source's match-arm order; arms the source leaves empty
(e.g. the Date/Start/End `Editing` inputs) are no-ops. -/
def update (m : AppManager) (key : KeyCode) (now : DateTime) : Except String AppManager :=
  match m.state with
  | .idle =>
    if key = KEY_NEW then .ok { m with state := .new (.description .no) }
    else if key = KEY_EDIT then
      .ok { m with selected_session_index := wrapSub m.sessions.length 1,
                   state := .modify (.edit .browse) }
    else if key = KEY_CONTINUE then
      .ok { m with selected_session_index := wrapSub m.sessions.length 1,
                   state := .modify (.cont .no) }
    else if key = KEY_DELETE then
      .ok { m with selected_session_index := wrapSub m.sessions.length 1,
                   state := .modify (.delete .no) }
    else if key = KEY_END then
      .ok (if m.is_last_session_still_running then { m with state := .end_ } else m)
    else if key = KEY_QUIT then .ok { m with state := .quitting }
    else .ok m
  | .new inputField =>
    match inputField with
    | .description .yes =>
      if key = KEY_YES then do
        let m ← end_running_session m now
        let m := try_start_new_session m now
        .ok { m with state := .idle }
      else if key = KEY_NO ∨ key = KEY_ESCAPE then
        .ok { m with state := .new (.description .no) }
      else .ok m
    | .description .no =>
      if key = KEY_ESCAPE then .ok { m with state := .idle }
      else if key = KEY_BACKSPACE then
        .ok { m with description_buffer := m.description_buffer.dropLast }
      else if key = KEY_ENTER then
        if m.is_last_session_still_running then
          .ok { m with state := .new (.description .yes) }
        else .ok { (try_start_new_session m now) with state := .idle }
      else if key = KEY_TAB then
        .ok { m with temp_tag_index := m.selected_tag_index, state := .new (.tag .select) }
      else
        match key with
        | .char c => .ok { m with description_buffer := m.description_buffer ++ [c] }
        | _ => .ok m
    | .tag .select =>
      if key = KEY_NEW then .ok { m with state := .new (.tag .new) }
      else if key = KEY_ESCAPE then .ok { m with state := .new (.description .no) }
      else if key = KEY_UP then
        .ok (if 0 < m.temp_tag_index then { m with temp_tag_index := m.temp_tag_index - 1 } else m)
      else if key = KEY_DOWN then
        .ok (if m.temp_tag_index + 1 < m.tags.length then
              { m with temp_tag_index := m.temp_tag_index + 1 } else m)
      else if key = KEY_ENTER then
        .ok { m with selected_tag_index := m.temp_tag_index, state := .new (.description .no) }
      else .ok m
    | .tag .new =>
      if key = KEY_ESCAPE then .ok { m with state := .new (.tag .select) }
      else if key = KEY_BACKSPACE then
        .ok { m with tag_buffer := m.tag_buffer.dropLast }
      else if key = KEY_ENTER then
        .ok { (try_store_tag m) with state := .new (.description .no) }
      else
        match key with
        | .char c => .ok { m with tag_buffer := m.tag_buffer ++ [c] }
        | _ => .ok m
    | .tag (.delete _) => .ok m
  | .modify ms =>
    match ms with
    | .edit .browse =>
      if key = KEY_ESCAPE then .ok { m with state := .idle }
      else if key = KEY_UP then
        .ok (if m.selected_session_index + 1 < m.sessions.length then
              { m with selected_session_index := m.selected_session_index + 1 } else m)
      else if key = KEY_DOWN then
        .ok (if 0 < m.selected_session_index then
              { m with selected_session_index := m.selected_session_index - 1 } else m)
      else if key = KEY_ENTER then
        .ok { (copy_selected_session_to_buffer m) with
              state := .modify (.edit (.editFields .browse)) }
      else .ok m
    | .edit (.editFields .browse) =>
      if key = KEY_ESCAPE then
        if m.session_buffer_has_pending_changes then
          .ok { m with state := .modify (.edit .confirm) }
        else
          .ok { m with session_edit_buffer := none,
                       selected_session_field := .none,
                       state := .modify (.edit .browse) }
      else if key = KEY_LEFT then
        syncTagIndexIfTagField (decrement_selected_session_field m)
      else if key = KEY_RIGHT then
        syncTagIndexIfTagField (increment_selected_session_field m)
      else if key = KEY_ENTER then
        .ok { m with selected_datetime_segment := 0,
                     state := .modify (.edit (.editFields .editing)) }
      else .ok m
    | .edit (.editFields .editing) => do
      -- first match on the key: Escape / Enter leave the editing sub-state
      -- (Enter also commits the field buffer into the session buffer)
      let m ←
        if key = KEY_ESCAPE then
          pure { m with state := .modify (.edit (.editFields .browse)) }
        else if key = KEY_ENTER then
          pure { (store_modified_field_to_session_buffer m) with
                 state := .modify (.edit (.editFields .browse)) }
        else pure m
      -- second match on the selected field: field-specific input
      match m.selected_session_field with
      | .date _ => .ok m
      | .description descBuffer =>
        if key = KEY_BACKSPACE then
          .ok { m with selected_session_field := .description descBuffer.dropLast }
        else
          match key with
          | .char c => .ok { m with selected_session_field := .description (descBuffer ++ [c]) }
          | _ => .ok m
      | .tag _ =>
        if key = KEY_UP then
          let t := if 0 < m.temp_tag_index then m.temp_tag_index - 1 else m.temp_tag_index
          match m.tags[t]? with
          | none => .error "tag index out of bounds"
          | some tg => .ok { m with temp_tag_index := t, selected_session_field := .tag tg }
        else if key = KEY_DOWN then
          let t := if m.temp_tag_index + 1 < m.tags.length then m.temp_tag_index + 1
                   else m.temp_tag_index
          match m.tags[t]? with
          | none => .error "tag index out of bounds"
          | some tg => .ok { m with temp_tag_index := t, selected_session_field := .tag tg }
        else .ok m
      | .start _ => .ok m
      | .end_ _ => .ok m
      | .none => .ok m
    | .edit .confirm =>
      if key = KEY_YES then do
        let m ← apply_changes_to_session m
        .ok { m with session_edit_buffer := none, selected_session_field := .none,
                     state := .idle }
      else if key = KEY_NO then
        .ok { m with session_edit_buffer := none, selected_session_field := .none,
                     state := .idle }
      else if key = KEY_ESCAPE then
        .ok { m with state := .modify (.edit (.editFields .browse)) }
      else .ok m
    | .cont .yes =>
      if key = KEY_YES then do
        let m ← continue_selected_session m now
        .ok { m with state := .idle }
      else if key = KEY_NO ∨ key = KEY_ESCAPE then .ok { m with state := .idle }
      else .ok m
    | .cont .no =>
      if key = KEY_ESCAPE then .ok { m with state := .idle }
      else if key = KEY_UP then
        .ok (if m.selected_session_index + 1 < m.sessions.length then
              { m with selected_session_index := m.selected_session_index + 1 } else m)
      else if key = KEY_DOWN then
        .ok (if 0 < m.selected_session_index then
              { m with selected_session_index := m.selected_session_index - 1 } else m)
      else if key = KEY_ENTER then
        .ok { m with state := .modify (.cont .yes) }
      else .ok m
    | .delete .yes =>
      if key = KEY_YES then do
        let m ← m.delete_selected_session
        .ok { m with state := .idle }
      else if key = KEY_NO ∨ key = KEY_ESCAPE then .ok { m with state := .idle }
      else .ok m
    | .delete .no =>
      if key = KEY_ESCAPE then .ok { m with state := .idle }
      else if key = KEY_UP then
        .ok (if m.selected_session_index + 1 < m.sessions.length then
              { m with selected_session_index := m.selected_session_index + 1 } else m)
      else if key = KEY_DOWN then
        .ok (if 0 < m.selected_session_index then
              { m with selected_session_index := m.selected_session_index - 1 } else m)
      else if key = KEY_ENTER then
        .ok { m with state := .modify (.delete .yes) }
      else .ok m
  | .end_ =>
    if key = KEY_YES then do
      let m ← m.end_running_session now
      .ok { m with state := .idle }
    else if key = KEY_NO ∨ key = KEY_ESCAPE then .ok { m with state := .idle }
    else .ok m
  | .quitting =>
    if key = KEY_YES then do
      let m ← if m.is_last_session_still_running then m.end_running_session now else pure m
      .ok { m with running := false }
    else if key = KEY_NO ∨ key = KEY_ESCAPE then .ok { m with state := .idle }
    else .ok m

/-- Run a finite sequence of key events (each paired with the wall-clock value
`get_current_time()` would observe while handling it). -/
def stepRun (m : AppManager) : List (KeyCode × DateTime) → Except String AppManager
  | [] => .ok m
  | (k, t) :: rest =>
    match update m k t with
    | .error e => .error e
    | .ok m1 => stepRun m1 rest

/-- `AppManager::new` (identical in `main.rs` and `app_manager.rs`):
default-initialise every field, then import the sessions file; only when it
yields sessions, import the tags file and select the index of the last
session's tag. `import_sessions`/`import_tags` read the (existing) files and
keep the non-empty lines. -/
def appManagerNew (db : Database) : Except String AppManager :=
  let base : AppManager :=
    { running := true, tags := [], temp_tag_index := 0, selected_session_index := 0,
      selected_session_field := .none, selected_datetime_segment := 0,
      selected_tag_index := 0, sessions := [], state := .idle,
      description_buffer := [], tag_buffer := [], session_edit_buffer := none, db := db }
  match parse_sessions (db.sessionsLines.filter (fun l => decide (l ≠ []))) with
  | .error e => .error e
  | .ok none => .ok base
  | .ok (some sessions) =>
    let m := { base with sessions := sessions, tags := db.tagsLines.filter (fun l => decide (l ≠ [])) }
    match sessions.getLast? with
    | none => .error "unwrap on empty sessions"
    | some last =>
      match m.get_index_of_tag last.tag with
      | none => .error "Failed to retrieve tag index."
      | some i => .ok { m with selected_tag_index := i }

def emptyDatabase : Database := ⟨[], [], false⟩

/-- The startup state on a fresh install (what `AppManager::new` returns when
both files are empty). -/
def initManager : AppManager :=
  { running := true, tags := [], temp_tag_index := 0, selected_session_index := 0,
    selected_session_field := .none, selected_datetime_segment := 0,
    selected_tag_index := 0, sessions := [], state := .idle,
    description_buffer := [], tag_buffer := [], session_edit_buffer := none,
    db := emptyDatabase }

/-! ## Concrete scenario data used by the claim theorems -/

/-- An arbitrary wall-clock instant for key events that do not read the
clock. -/
def zt : DateTime := ⟨2024, 1, 5, 8, 0, 0⟩

/-- A time of day on 2024-01-05. -/
def dtAt (h mi s : Nat) : DateTime := ⟨2024, 1, 5, h, mi, s⟩

/-- Key-event script, started from the fresh-install state: create tag `t`
(n, Tab, n, 't', Enter), start session `a` at 09:00 and end it at 09:30
(space, y), start session `b` at 10:00 and leave it running, then request
continue/copy ('c'), move the selection down to the ended session `a` and
confirm (Enter, y) at 10:15. -/
def c1Events : List (KeyCode × DateTime) :=
  [ (KEY_NEW, zt), (KEY_TAB, zt), (KEY_NEW, zt), (.char 't', zt), (KEY_ENTER, zt),
    (.char 'a', zt), (KEY_ENTER, dtAt 9 0 0),
    (KEY_END, zt), (KEY_YES, dtAt 9 30 0),
    (KEY_NEW, zt), (.char 'b', zt), (KEY_ENTER, dtAt 10 0 0),
    (KEY_CONTINUE, zt), (KEY_DOWN, zt), (KEY_ENTER, zt), (KEY_YES, dtAt 10 15 0) ]

/-- Continuation of `c1Events`: end the copied session at 10:30, run one more
session `d` from 11:00 to 11:30, then delete the in-memory session at index 2
(the copy of `a`), which makes the store delete line index 2 — the line of
session `d`. -/
def c2Events : List (KeyCode × DateTime) :=
  c1Events ++
  [ (KEY_END, zt), (KEY_YES, dtAt 10 30 0),
    (KEY_NEW, zt), (.char 'd', zt), (KEY_ENTER, dtAt 11 0 0),
    (KEY_END, zt), (KEY_YES, dtAt 11 30 0),
    (KEY_DELETE, zt), (KEY_DOWN, zt), (KEY_ENTER, zt), (KEY_YES, zt) ]

/-- A session that crosses midnight: started 2024-01-01 23:00:00, ended
2024-01-02 01:00:00. -/
def sCross : Session :=
  ⟨"a".toList, "b".toList, ⟨2024, 1, 1, 23, 0, 0⟩, some ⟨2024, 1, 2, 1, 0, 0⟩⟩

/-- The database line `construct_db_string` produces for `sCross` (only the
start's calendar date is stored). -/
def lineCross : Str := "01-01-2024;a;b;23:00:00;01:00:00;02:00:00".toList

/-- What `parse_sessions` recovers from `lineCross`: the end is placed on the
start's date, one day early. -/
def parsedCross : Session :=
  ⟨"a".toList, "b".toList, ⟨2024, 1, 1, 23, 0, 0⟩, some ⟨2024, 1, 1, 1, 0, 0⟩⟩

/-- An ended same-day session used by several witnesses. -/
def sSame : Session := ⟨"a".toList, "t".toList, dtAt 9 0 0, some (dtAt 9 30 0)⟩

/-- An ended session used by the edit-field witnesses. -/
def sEdit : Session := ⟨"a".toList, "b".toList, dtAt 10 0 0, some (dtAt 11 0 0)⟩

/-- A database whose sessions log holds the line of `sSame` and whose tags
file lists `t` and `u`. -/
def dbW10 : Database :=
  ⟨[(construct_db_string sSame).getD []], ["t".toList, "u".toList], false⟩

/-- The manager `AppManager::new` builds from `dbW10`. -/
def mW10 : AppManager :=
  { running := true, tags := ["t".toList, "u".toList], temp_tag_index := 0,
    selected_session_index := 0, selected_session_field := .none,
    selected_datetime_segment := 0, selected_tag_index := 0, sessions := [sSame],
    state := .idle, description_buffer := [], tag_buffer := [],
    session_edit_buffer := none, db := dbW10 }

/-- A store state in which the delete-operation's temp file already exists. -/
def dbTemp : Database := ⟨["x".toList, "y".toList], [], true⟩

/-- A manager about to submit the duplicate tag `t`. -/
def mW8 : AppManager :=
  { initManager with tags := ["t".toList], tag_buffer := " t ".toList }

/-- A manager holding one ended session, with no pending edit buffer. -/
def mE9 : AppManager := { initManager with sessions := [sSame] }

/-- The result of `apply_changes_to_session` on `mE9`: the full rewrite
succeeds and the persisted log is exactly the serialized session list. -/
def mE9r : AppManager :=
  { mE9 with db := { mE9.db with sessionsLines := [(construct_db_string sSame).getD []] } }

/-! ## Lemmas about digits, padding and the numeric reader -/

theorem digitChar_isDigit {d : Nat} (h : d < 10) : (digitChar d).isDigit = true := by
  interval_cases d <;> decide

theorem digitChar_val {d : Nat} (h : d < 10) : (digitChar d).toNat - 48 = d := by
  interval_cases d <;> decide

theorem isDigit_not_ws {c : Char} (h : c.isDigit = true) : isWs c = false := by
  simp [Char.isDigit] at h
  simp [isWs, Char.ext_iff]
  refine ⟨⟨⟨?_, ?_⟩, ?_⟩, ?_⟩ <;> (intro hv; rw [hv] at h; exact absurd h (by decide))

theorem natToCharsAux_succ (fuel n : Nat) :
    natToCharsAux (fuel + 1) n =
      if n < 10 then [digitChar n]
      else natToCharsAux fuel (n / 10) ++ [digitChar (n % 10)] := rfl

theorem natToCharsAux_small {fuel n : Nat} (hf : 0 < fuel) (h : n < 10) :
    natToCharsAux fuel n = [digitChar n] := by
  cases fuel with
  | zero => omega
  | succ f => rw [natToCharsAux_succ, if_pos h]

theorem natToChars_two {n : Nat} (h1 : 10 ≤ n) (h2 : n < 100) :
    natToChars n = [digitChar (n / 10), digitChar (n % 10)] := by
  unfold natToChars
  rw [natToCharsAux_succ, if_neg (by omega),
      natToCharsAux_small (by omega) (by omega)]
  rfl

theorem natToChars_three {n : Nat} (h1 : 100 ≤ n) (h2 : n < 1000) :
    natToChars n = [digitChar (n / 100), digitChar (n / 10 % 10), digitChar (n % 10)] := by
  obtain ⟨f, rfl⟩ : ∃ f, n = f + 1 := ⟨n - 1, by omega⟩
  unfold natToChars
  rw [natToCharsAux_succ, if_neg (by omega), natToCharsAux_succ, if_neg (by omega)]
  have e1 : (f + 1) / 10 / 10 = (f + 1) / 100 := by omega
  rw [e1, natToCharsAux_small (by omega) (by omega)]
  rfl

theorem natToChars_four {n : Nat} (h1 : 1000 ≤ n) (h2 : n < 10000) :
    natToChars n =
      [digitChar (n / 1000), digitChar (n / 100 % 10),
       digitChar (n / 10 % 10), digitChar (n % 10)] := by
  obtain ⟨f, rfl⟩ : ∃ f, n = f + 1 := ⟨n - 1, by omega⟩
  obtain ⟨g, rfl⟩ : ∃ g, f = g + 1 := ⟨f - 1, by omega⟩
  unfold natToChars
  rw [natToCharsAux_succ, if_neg (by omega), natToCharsAux_succ, if_neg (by omega),
      natToCharsAux_succ, if_neg (by omega)]
  have e1 : (g + 1 + 1) / 10 / 10 / 10 = (g + 1 + 1) / 1000 := by omega
  have e2 : (g + 1 + 1) / 10 / 10 % 10 = (g + 1 + 1) / 100 % 10 := by omega
  rw [e1, e2, natToCharsAux_small (by omega) (by omega)]
  rfl

theorem pad2_eq {n : Nat} (h : n < 100) :
    pad2 n = [digitChar (n / 10), digitChar (n % 10)] := by
  unfold pad2
  by_cases h10 : n < 10
  · rw [if_pos h10]
    have e1 : n / 10 = 0 := by omega
    have e2 : n % 10 = n := by omega
    rw [e1, e2]
    rfl
  · rw [if_neg h10, natToChars_two (by omega) h]

theorem pad4_eq {n : Nat} (h : n < 10000) :
    pad4 n =
      [digitChar (n / 1000), digitChar (n / 100 % 10),
       digitChar (n / 10 % 10), digitChar (n % 10)] := by
  unfold pad4
  by_cases ha : n < 10
  · rw [if_pos ha]
    have e1 : n / 1000 = 0 := by omega
    have e2 : n / 100 % 10 = 0 := by omega
    have e3 : n / 10 % 10 = 0 := by omega
    have e4 : n % 10 = n := by omega
    rw [e1, e2, e3, e4]
    rfl
  · rw [if_neg ha]
    by_cases hb : n < 100
    · rw [if_pos hb, natToChars_two (by omega) hb]
      have e1 : n / 1000 = 0 := by omega
      have e2 : n / 100 % 10 = 0 := by omega
      have e3 : n / 10 % 10 = n / 10 := by omega
      rw [e1, e2, e3]
      rfl
    · rw [if_neg hb]
      by_cases hc : n < 1000
      · rw [if_pos hc, natToChars_three (by omega) hc]
        have e1 : n / 1000 = 0 := by omega
        have e2 : n / 100 % 10 = n / 100 := by omega
        rw [e1, e2]
        rfl
      · rw [if_neg hc, natToChars_four (by omega) h]

theorem takeDigits_stop {c : Char} (w : Nat) (hc : c.isDigit = false) (s : Str) :
    takeDigits (w + 1) (c :: s) = ([], c :: s) := by
  simp [takeDigits, hc]

theorem takeDigits_two {c1 c2 : Char} (h1 : c1.isDigit = true) (h2 : c2.isDigit = true)
    (rest : Str) : takeDigits 2 (c1 :: c2 :: rest) = ([c1, c2], rest) := by
  simp [takeDigits, h1, h2]

theorem takeDigits_four {c1 c2 c3 c4 : Char} (h1 : c1.isDigit = true)
    (h2 : c2.isDigit = true) (h3 : c3.isDigit = true) (h4 : c4.isDigit = true)
    (rest : Str) : takeDigits 4 (c1 :: c2 :: c3 :: c4 :: rest) = ([c1, c2, c3, c4], rest) := by
  simp [takeDigits, h1, h2, h3, h4]

theorem dropWhile_isWs_digit {c : Char} (h : c.isDigit = true) (s : Str) :
    (c :: s).dropWhile isWs = c :: s := by
  simp [List.dropWhile_cons, isDigit_not_ws h]

theorem readNum_pad2 {n : Nat} (h : n < 100) (rest : Str) :
    readNum 2 (pad2 n ++ rest) = some (n, rest) := by
  have d1 := digitChar_isDigit (d := n / 10) (by omega)
  have d2 := digitChar_isDigit (d := n % 10) (by omega)
  rw [pad2_eq h]
  unfold readNum
  rw [show ([digitChar (n / 10), digitChar (n % 10)] ++ rest : Str) =
        digitChar (n / 10) :: digitChar (n % 10) :: rest from rfl,
      dropWhile_isWs_digit d1, takeDigits_two d1 d2]
  simp only [digitsVal, List.foldl]
  rw [digitChar_val (by omega), digitChar_val (by omega)]
  have : 10 * (10 * 0 + n / 10) + n % 10 = n := by omega
  rw [this]

theorem readNum_pad4 {n : Nat} (h : n < 10000) (rest : Str) :
    readNum 4 (pad4 n ++ rest) = some (n, rest) := by
  have d1 := digitChar_isDigit (d := n / 1000) (by omega)
  have d2 := digitChar_isDigit (d := n / 100 % 10) (by omega)
  have d3 := digitChar_isDigit (d := n / 10 % 10) (by omega)
  have d4 := digitChar_isDigit (d := n % 10) (by omega)
  rw [pad4_eq h]
  unfold readNum
  rw [show ([digitChar (n / 1000), digitChar (n / 100 % 10), digitChar (n / 10 % 10),
            digitChar (n % 10)] ++ rest : Str) =
        digitChar (n / 1000) :: digitChar (n / 100 % 10) :: digitChar (n / 10 % 10) ::
          digitChar (n % 10) :: rest from rfl,
      dropWhile_isWs_digit d1, takeDigits_four d1 d2 d3 d4]
  simp only [digitsVal, List.foldl]
  rw [digitChar_val (by omega), digitChar_val (by omega), digitChar_val (by omega),
      digitChar_val (by omega)]
  have : 10 * (10 * (10 * (10 * 0 + n / 1000) + n / 100 % 10) + n / 10 % 10) + n % 10 = n := by
    omega
  rw [this]

theorem dropWhile_isWs_pad2 {n : Nat} (h : n < 100) (rest : Str) :
    (pad2 n ++ rest).dropWhile isWs = pad2 n ++ rest := by
  rw [pad2_eq h]
  exact dropWhile_isWs_digit (digitChar_isDigit (by omega)) _

theorem daysInMonth_le (y : Int) (m : Nat) : daysInMonth y m ≤ 31 := by
  unfold daysInMonth
  split <;> (try split) <;> omega

theorem isWs_space : isWs ' ' = true := rfl

/-- Parsing the database serialization of a date (from `a`) and a time (from
`b`) recovers exactly those fields. -/
theorem parseDb_roundtrip (a b : DateTime) (ha : validDT a = true) (hb : validDT b = true) :
    parseDbDateTime (formatDbDate a ++ ' ' :: formatHms b) =
      some ⟨a.year, a.month, a.day, b.hour, b.minute, b.second⟩ := by
  simp only [validDT, dtOk, dateOk, timeOk, Bool.and_eq_true, decide_eq_true_eq] at ha hb
  obtain ⟨⟨⟨⟨⟨⟨hm1, hm2⟩, hd1⟩, hd2⟩, ⟨⟨hh, hmi⟩, hs⟩⟩, hy0⟩, hy4⟩ := ha
  obtain ⟨⟨⟨⟨⟨⟨_, _⟩, _⟩, _⟩, ⟨⟨hbh, hbmi⟩, hbs⟩⟩, _⟩, _⟩ := hb
  have hdim := daysInMonth_le a.year a.month
  have hday : a.day < 100 := by omega
  have hmon : a.month < 100 := by omega
  have hyear : a.year.toNat < 10000 := by omega
  have hbh2 : b.hour < 100 := by omega
  have hbmi2 : b.minute < 100 := by omega
  have hbs2 : b.second < 100 := by omega
  have key : formatDbDate a ++ ' ' :: formatHms b =
      pad2 a.day ++ '-' :: (pad2 a.month ++ '-' :: (pad4 a.year.toNat ++ ' ' ::
        (pad2 b.hour ++ ':' :: (pad2 b.minute ++ ':' :: pad2 b.second)))) := by
    simp [formatDbDate, formatHms]
  rw [key]
  unfold parseDbDateTime
  simp only [readNum_pad2 hday, readNum_pad2 hmon, readNum_pad4 hyear, expectChar,
             List.dropWhile_cons, isWs_space, if_true, readNum_pad2 hbh2, readNum_pad2 hbmi2,
             readNum_pad2 hbs2, dropWhile_isWs_pad2 hbh2, reduceIte]
  have hlast : readNum 2 (pad2 b.second) = some (b.second, []) := by
    have h0 := readNum_pad2 hbs2 ([] : Str)
    simpa using h0
  simp only [hlast]
  rw [Int.toNat_of_nonneg hy0]
  have hok : dtOk ⟨a.year, a.month, a.day, b.hour, b.minute, b.second⟩ = true := by
    simp only [dtOk, dateOk, timeOk, Bool.and_eq_true, decide_eq_true_eq]
    omega
  simp [hok]

/-! ## Lemmas about splitting the serialized line -/

theorem splitOnChar_cons_ne {sep c : Char} (hc : ¬(c = sep)) (rest : Str) :
    splitOnChar sep (c :: rest) =
      match splitOnChar sep rest with
      | [] => [[c]]
      | t :: ts => (c :: t) :: ts := by
  conv_lhs => rw [splitOnChar]
  rw [if_neg hc]

theorem splitOnChar_append_sep (sep : Char) (a b : Str) (h : sep ∉ a) :
    splitOnChar sep (a ++ sep :: b) = a :: splitOnChar sep b := by
  induction a with
  | nil =>
    rw [List.nil_append]
    conv_lhs => rw [splitOnChar]
    rw [if_pos rfl]
  | cons c cs ih =>
    have hc : ¬(c = sep) := by
      intro hcs
      exact h (by simp [hcs])
    have hcs : sep ∉ cs := by
      intro hm
      exact h (by simp [hm])
    rw [List.cons_append, splitOnChar_cons_ne hc, ih hcs]

theorem mem_natToCharsAux_isDigit :
    ∀ fuel n c, c ∈ natToCharsAux fuel n → c.isDigit = true := by
  intro fuel
  induction fuel with
  | zero => intro n c h; simp [natToCharsAux] at h
  | succ f ih =>
    intro n c h
    rw [natToCharsAux_succ] at h
    by_cases hn : n < 10
    · rw [if_pos hn] at h
      simp at h
      subst h
      exact digitChar_isDigit hn
    · rw [if_neg hn] at h
      rcases List.mem_append.1 h with h1 | h2
      · exact ih _ _ h1
      · simp at h2
        subst h2
        exact digitChar_isDigit (by omega)

theorem pad2_digits {n : Nat} {c : Char} (h : c ∈ pad2 n) : c.isDigit = true := by
  unfold pad2 at h
  by_cases hn : n < 10
  · rw [if_pos hn] at h
    rcases List.mem_cons.1 h with rfl | h
    · decide
    rcases List.mem_cons.1 h with rfl | h
    · exact digitChar_isDigit hn
    simp at h
  · rw [if_neg hn] at h
    exact mem_natToCharsAux_isDigit _ _ _ h

theorem pad4_digits {n : Nat} {c : Char} (h : c ∈ pad4 n) : c.isDigit = true := by
  unfold pad4 at h
  by_cases h1 : n < 10
  · rw [if_pos h1] at h
    rcases List.mem_cons.1 h with rfl | h
    · decide
    rcases List.mem_cons.1 h with rfl | h
    · decide
    rcases List.mem_cons.1 h with rfl | h
    · decide
    rcases List.mem_cons.1 h with rfl | h
    · exact digitChar_isDigit h1
    simp at h
  · rw [if_neg h1] at h
    by_cases h2 : n < 100
    · rw [if_pos h2] at h
      rcases List.mem_cons.1 h with rfl | h
      · decide
      rcases List.mem_cons.1 h with rfl | h
      · decide
      exact mem_natToCharsAux_isDigit _ _ _ h
    · rw [if_neg h2] at h
      by_cases h3 : n < 1000
      · rw [if_pos h3] at h
        rcases List.mem_cons.1 h with rfl | h
        · decide
        exact mem_natToCharsAux_isDigit _ _ _ h
      · rw [if_neg h3] at h
        exact mem_natToCharsAux_isDigit _ _ _ h

theorem sep_not_mem_formatDbDate (dt : DateTime) : ';' ∉ formatDbDate dt := by
  intro h
  unfold formatDbDate at h
  rcases List.mem_append.1 h with h1 | h1
  · rcases List.mem_append.1 h1 with h2 | h2
    · exact absurd (pad2_digits h2) (by decide)
    · rcases List.mem_cons.1 h2 with h3 | h3
      · exact absurd h3 (by decide)
      · exact absurd (pad2_digits h3) (by decide)
  · rcases List.mem_cons.1 h1 with h2 | h2
    · exact absurd h2 (by decide)
    · exact absurd (pad4_digits h2) (by decide)

theorem sep_not_mem_formatHms (dt : DateTime) : ';' ∉ formatHms dt := by
  intro h
  unfold formatHms at h
  rcases List.mem_append.1 h with h1 | h1
  · rcases List.mem_append.1 h1 with h2 | h2
    · exact absurd (pad2_digits h2) (by decide)
    · rcases List.mem_cons.1 h2 with h3 | h3
      · exact absurd h3 (by decide)
      · exact absurd (pad2_digits h3) (by decide)
  · rcases List.mem_cons.1 h1 with h2 | h2
    · exact absurd h2 (by decide)
    · exact absurd (pad2_digits h2) (by decide)

theorem parse_sessions_singleton {L : Str} {s : Session} (h : parseSessionLine L = .ok s) :
    parse_sessions [L] = .ok (some [s]) := by
  unfold parse_sessions
  simp only [List.mapM, List.mapM.loop, h]
  rfl

/-- Parsing one serialized line recovers the description, the tag, the start,
and an end rebuilt from the start's calendar date and the end's time of day —
whatever the trailing (duration) field holds. -/
theorem parseSessionLine_of_serialized (a eDT : DateTime) (d t tail : Str)
    (hs : validDT a = true) (he : validDT eDT = true)
    (hd : ';' ∉ d) (ht : ';' ∉ t) :
    parseSessionLine (formatDbDate a ++ ';' :: (d ++ ';' :: (t ++ ';' ::
        (formatHms a ++ ';' :: (formatHms eDT ++ ';' :: tail))))) =
      .ok ⟨d, t, a, some ⟨a.year, a.month, a.day, eDT.hour, eDT.minute, eDT.second⟩⟩ := by
  unfold parseSessionLine
  rw [splitOnChar_append_sep ';' _ _ (sep_not_mem_formatDbDate a),
      splitOnChar_append_sep ';' _ _ hd,
      splitOnChar_append_sep ';' _ _ ht,
      splitOnChar_append_sep ';' _ _ (sep_not_mem_formatHms a),
      splitOnChar_append_sep ';' _ _ (sep_not_mem_formatHms eDT)]
  simp only [List.getElem?_cons_zero, List.getElem?_cons_succ]
  rw [parseDb_roundtrip a a hs hs, parseDb_roundtrip a eDT hs he]

/-- C3 (amended): for every session whose end is set, serializing it to the
canonical line format and parsing the line back yields a session equal to the
original in description, tag, start and end — regardless of the trailing
duration field — provided the end falls on the same calendar date as the
start (only the start's date is stored in the line) and the description and
tag do not contain the separator character. -/
theorem c3_roundtrip_same_day (s : Session) (e : DateTime) (line : Str)
    (hend : s.end_ = some e)
    (hs : validDT s.start = true) (he : validDT e = true)
    (hyr : e.year = s.start.year) (hmo : e.month = s.start.month)
    (hdy : e.day = s.start.day)
    (hd : ';' ∉ s.description) (ht : ';' ∉ s.tag)
    (hline : construct_db_string s = some line) :
    parse_sessions [line] = .ok (some [s]) := by
  obtain ⟨sd, stg, sst, sen⟩ := s
  simp only at hend hs hd ht hyr hmo hdy hline ⊢
  subst hend
  simp only [construct_db_string, Option.some.injEq] at hline
  subst hline
  apply parse_sessions_singleton
  simp only [List.append_assoc, List.cons_append]
  rw [parseSessionLine_of_serialized sst e sd stg _ hs he hd ht, ← hyr, ← hmo, ← hdy]

/-- C3 counterexample: the round-trip fails for a session that crosses
midnight. `construct_db_string` stores only the start's calendar date
(`01-01-2024`) with both times of day, so parsing the line back puts the end
on the start's date: the recovered end is 2024-01-01 01:00:00 instead of
2024-01-02 01:00:00. -/
theorem c3_counterexample :
    construct_db_string sCross = some lineCross ∧
    parse_sessions [lineCross] = .ok (some [parsedCross]) ∧
    parsedCross.end_ ≠ sCross.end_ ∧ parsedCross ≠ sCross :=
  ⟨rfl, rfl, by decide, by decide⟩

/-- Witness for `c3_roundtrip_same_day` at the concrete session `sSame`. -/
theorem c3_witness :
    sSame.end_ = some (dtAt 9 30 0) ∧
    parse_sessions [(construct_db_string sSame).getD []] = .ok (some [sSame]) :=
  ⟨rfl,
   c3_roundtrip_same_day sSame (dtAt 9 30 0) ((construct_db_string sSame).getD [])
     rfl (by decide) (by decide) rfl rfl rfl (by decide) (by decide) rfl⟩

/-! ## The Date/Start/End edit parse always fails -/

theorem isWs_colon : isWs ':' = false := rfl

theorem monthFromName_colon (c2 c3 : Char) : monthFromName ':' c2 c3 = none := rfl

/-- Any input that starts with a (two-digit) time-of-day prefix fails to
parse under the `"%d %b %y %H:%M:%S"` format: the day item greedily reads the
two hour digits and the month-name item then meets `':'`. -/
theorem parseUi_time_prefix_fails {h : Nat} (hh : h < 100) (t : Str) :
    parseUiDateTime (pad2 h ++ ':' :: t) = none := by
  unfold parseUiDateTime
  rw [readNum_pad2 hh]
  simp only [List.dropWhile_cons, isWs_colon, Bool.false_eq_true, if_false]
  cases t with
  | nil => rfl
  | cons c2 t2 =>
    cases t2 with
    | nil => rfl
    | cons c3 t3 => rfl

/-- C4: the Date-field edit of `set_field_from_string` is a silent no-op for
every session and every supplied date string. The code builds
`"{start_time_string} {new_date_string}"` but parses it with the date-first
format `"%d %b %y %H:%M:%S"`, so the parse always fails and neither `start`
nor `end` is shifted. (`hour < 100` always holds for a real timestamp.) -/
theorem c4_date_edit_noop (s : Session) (v : Str) (hh : s.start.hour < 100) :
    set_field_from_string s .date v = s := by
  have hfail : parseUiDateTime (s.get_start_time_string ++ ' ' :: v) = none := by
    unfold Session.get_start_time_string formatHms
    simp only [List.append_assoc, List.cons_append]
    exact parseUi_time_prefix_fails hh _
  simp only [set_field_from_string]
  rw [hfail]

/-- C5: the Start-field and End-field edits of `set_field_from_string` are
silent no-ops for every session and every well-formed time string (one whose
hour digits are followed by `':'`): the code builds
`"{value} {date_string}"` but parses it with the date-first format, and the
month-name item meets the `':'` after the hour digits, so the parse always
fails and neither timestamp changes. -/
theorem c5_start_end_edit_noop (s : Session) (hr : Nat) (w : Str) (hb : hr < 100) :
    set_field_from_string s .start (pad2 hr ++ ':' :: w) = s ∧
    set_field_from_string s .end_ (pad2 hr ++ ':' :: w) = s := by
  have hfail : parseUiDateTime ((pad2 hr ++ ':' :: w) ++ ' ' :: s.get_date_string) = none := by
    simp only [List.append_assoc, List.cons_append]
    exact parseUi_time_prefix_fails hb _
  constructor <;> (simp only [set_field_from_string]; rw [hfail])

/-- Witness for `c4_date_edit_noop`: editing the Date field of `sEdit`
(05 Jan 24) to `06 Jan 24` leaves the session unchanged, although the claim
requires start and end to move forward by one day. -/
theorem c4_witness :
    sEdit.start.hour < 100 ∧
    set_field_from_string sEdit .date ("06 Jan 24".toList) = sEdit :=
  ⟨by decide, c4_date_edit_noop sEdit ("06 Jan 24".toList) (by decide)⟩

/-- Witness for `c5_start_end_edit_noop`: editing the Start or End field of
`sEdit` to `12:00:00` leaves the session unchanged, although the claim
requires the corresponding timestamp to become 12:00:00. -/
theorem c5_witness :
    set_field_from_string sEdit .start (pad2 12 ++ ':' :: ("00:00".toList)) = sEdit ∧
    set_field_from_string sEdit .end_ (pad2 12 ++ ':' :: ("00:00".toList)) = sEdit :=
  c5_start_end_edit_noop sEdit 12 ("00:00".toList) (by decide)

/-! ## C1 and C2: the running-session invariants fail on the real machine -/

/-- C1: from the fresh-install initial state, the key script `c1Events`
(start and end session `a`, start session `b` and leave it running, then
continue/copy the ended session `a`) drives the machine — without any panic —
into a state whose session list is `[a(ended), b(running), copy(running)]`:
two sessions have `end == None`, and the running session `b` is not the last
element. `continue_selected_session` checks only whether the *selected*
session is running and `try_start_new_session` never checks for a running
session, so the confirm-end-first rule of the New flow is bypassed. -/
theorem c1_two_running_sessions_reachable :
    (stepRun initManager c1Events).map
        (fun m => ((m.sessions.filter (fun s => s.is_running)).length, m.sessions.length)) =
      .ok (2, 3) ∧
    (stepRun initManager c1Events).map
        (fun m => m.sessions.map (fun s => s.is_running)) = .ok [false, true, true] :=
  ⟨rfl, rfl⟩

/-- C2: continuing `c1Events`, the script `c2Events` ends the copied session,
runs one more session `d`, and then deletes the in-memory session at index 2;
`delete_selected_session` passes that in-memory index to the store, which
deletes disk line 2 — the line of session `d` — because the running session
`b` sits at index 1 in memory but owns no disk line. In the resulting
(panic-free) state the persisted log is not the serialization of the
non-running sessions: the deleted copy's line is still on disk and the ended
session `d` has no line. -/
theorem c2_persisted_iff_violated :
    (stepRun initManager c2Events).map
        (fun m => decide (m.db.sessionsLines = m.sessions.filterMap construct_db_string)) =
      .ok false ∧
    (stepRun initManager c2Events).map
        (fun m => decide (∀ s ∈ m.sessions, s.is_running = false →
            (construct_db_string s).getD [] ∈ m.db.sessionsLines)) = .ok false ∧
    (stepRun initManager c2Events).map (fun m => m.db.sessionsLines.length) = .ok 2 ∧
    (stepRun initManager c2Events).map
        (fun m => (m.sessions.filter (fun s => !s.is_running)).length) = .ok 2 :=
  ⟨rfl, rfl, rfl, rfl⟩

/-! ## C6: requests on an empty session list -/

/-- C6: in any Idle state whose session list is empty, the edit request, the
continue/copy request, the delete request, and a delete request followed by a
confirmed delete of the (nonexistent) default selection all complete without
failing, and leave the session list and the persisted logs unchanged.
(`sessions.len() - 1` wraps to 2^64 - 1 under release-build semantics; every
subsequent lookup of that index is a checked `get` that returns `None`, and
`delete_selected_session` returns early on an empty list.) -/
theorem c6_empty_list_requests_noop
    (rn : Bool) (tags : List Str) (tti ssi sds sti : Nat) (fld : SessionField)
    (dbuf tbuf : Str) (seb : Option Session) (db0 : Database) (now : DateTime) :
    ((stepRun ⟨rn, tags, tti, ssi, fld, sds, sti, [], .idle, dbuf, tbuf, seb, db0⟩
        [(KEY_EDIT, now)]).map (fun m => (m.sessions, m.db)) = .ok ([], db0)) ∧
    ((stepRun ⟨rn, tags, tti, ssi, fld, sds, sti, [], .idle, dbuf, tbuf, seb, db0⟩
        [(KEY_CONTINUE, now)]).map (fun m => (m.sessions, m.db)) = .ok ([], db0)) ∧
    ((stepRun ⟨rn, tags, tti, ssi, fld, sds, sti, [], .idle, dbuf, tbuf, seb, db0⟩
        [(KEY_DELETE, now)]).map (fun m => (m.sessions, m.db)) = .ok ([], db0)) ∧
    ((stepRun ⟨rn, tags, tti, ssi, fld, sds, sti, [], .idle, dbuf, tbuf, seb, db0⟩
        [(KEY_DELETE, now), (KEY_ENTER, now), (KEY_YES, now)]).map
          (fun m => (m.sessions, m.db)) = .ok ([], db0)) :=
  ⟨rfl, rfl, rfl, rfl⟩

/-! ## C7: delete with a stale temp file -/

/-- C7 counterexample: with the temp file already present and a valid index,
`delete_session` completes normally — its Rust signature returns `()` and the
failed `create_new` open is swallowed by `if let Ok(...)`, so no error
reaches the caller — and the sessions file is untouched. This contradicts
"fails loudly by propagating an error to its caller". -/
theorem c7_counterexample : delete_session dbTemp 0 = some dbTemp := rfl

/-- C7 (amended): if the temp file used by the store's delete operation
already exists (and the index is in bounds), the operation is a silent
no-op: it completes without panicking and without reporting anything, and
the original sessions file is left untouched. -/
theorem c7_temp_exists_silent_noop (db : Database) (idx : Nat)
    (htemp : db.sessionsTempExists = true) (hidx : idx < db.sessionsLines.length) :
    delete_session db idx = some db := by
  unfold delete_session
  rw [if_pos hidx, if_pos htemp]

/-- Witness for `c7_temp_exists_silent_noop` at the concrete store `dbTemp`. -/
theorem c7_witness :
    dbTemp.sessionsTempExists = true ∧ 0 < dbTemp.sessionsLines.length ∧
    delete_session dbTemp 0 = some dbTemp :=
  ⟨rfl, by decide, c7_temp_exists_silent_noop dbTemp 0 rfl (by decide)⟩

/-! ## C8: tag-store rejections -/

/-- C8: for every manager state, submitting a tag whose trimmed value is
empty (covers the empty and whitespace-only strings) or already present
(case-sensitive exact match) leaves both the tag-list length and the
selected-tag index unchanged. -/
theorem c8_store_tag_rejection (m : AppManager)
    (h : rustTrim m.tag_buffer = [] ∨ rustTrim m.tag_buffer ∈ m.tags) :
    (m.try_store_tag).tags.length = m.tags.length ∧
    (m.try_store_tag).selected_tag_index = m.selected_tag_index := by
  simp only [AppManager.try_store_tag]
  rw [if_pos h]
  exact ⟨rfl, rfl⟩

/-- Witness for `c8_store_tag_rejection`: submitting `" t "` while `t` is
already registered changes neither the length nor the selection. -/
theorem c8_witness :
    rustTrim mW8.tag_buffer ∈ mW8.tags ∧
    (mW8.try_store_tag).tags.length = mW8.tags.length ∧
    (mW8.try_store_tag).selected_tag_index = mW8.selected_tag_index :=
  ⟨by decide, (c8_store_tag_rejection mW8 (Or.inr (by decide))).1,
   (c8_store_tag_rejection mW8 (Or.inr (by decide))).2⟩

/-! ## C9: serialization aborts exactly on running sessions -/

theorem export_all_sessions_some_ended :
    ∀ (l : List Session) (x : List Str), export_all_sessions l = some x →
      ∀ s ∈ l, s.end_ ≠ none := by
  intro l
  induction l with
  | nil => intro x _ s hs; simp at hs
  | cons a rest ih =>
    intro x hx s hs
    unfold export_all_sessions at hx
    cases ha : construct_db_string a with
    | none => rw [ha] at hx; exact absurd hx (by simp)
    | some line =>
      rw [ha] at hx
      cases hr : export_all_sessions rest with
      | none => rw [hr] at hx; exact absurd hx (by simp)
      | some lines =>
        rcases List.mem_cons.1 hs with rfl | hs2
        · intro hnone
          unfold construct_db_string at ha
          rw [hnone] at ha
          exact absurd ha (by simp)
        · exact ih lines hr s hs2

theorem export_all_ended_isSome :
    ∀ l : List Session, (∀ s ∈ l, s.end_ ≠ none) → (export_all_sessions l).isSome = true := by
  intro l
  induction l with
  | nil => intro _; rfl
  | cons a rest ih =>
    intro hall
    cases he : a.end_ with
    | none => exact absurd he (hall a (by simp))
    | some e =>
      have hr := ih (fun s hs => hall s (by simp [hs]))
      unfold export_all_sessions
      simp only [construct_db_string, he]
      cases hx : export_all_sessions rest with
      | none => rw [hx] at hr; simp at hr
      | some lines => rfl

/-- C9: `construct_db_string` takes the "Cannot export ongoing session."
abort branch exactly when `end == None`; the full-log rewrite
(`export_all_sessions`) succeeds exactly when every session in the list is
ended; and consequently an edit commit (`apply_changes_to_session`) that
completes without the abort leaves only sessions with `end` set. -/
theorem c9_serialize_iff_ended :
    (∀ s : Session, construct_db_string s = none ↔ s.end_ = none) ∧
    (∀ l : List Session,
        (export_all_sessions l).isSome = true ↔ ∀ s ∈ l, s.end_ ≠ none) ∧
    (∀ m m2 : AppManager, m.apply_changes_to_session = .ok m2 →
        ∀ s ∈ m2.sessions, s.end_ ≠ none) := by
  refine ⟨?_, ?_, ?_⟩
  · intro s
    cases h : s.end_ <;> simp [construct_db_string, h]
  · intro l
    constructor
    · intro hsome
      cases hx : export_all_sessions l with
      | none => rw [hx] at hsome; simp at hsome
      | some x => exact export_all_sessions_some_ended l x hx
    · exact export_all_ended_isSome l
  · intro m m2 hok
    unfold AppManager.apply_changes_to_session at hok
    simp only [] at hok
    cases hexp : export_all_sessions (m.write_buffer_to_selected).sessions with
    | none => rw [hexp] at hok; exact absurd hok (by simp)
    | some lines =>
      rw [hexp] at hok
      have hm2 : m2 =
          { m.write_buffer_to_selected with
            db := { (m.write_buffer_to_selected).db with sessionsLines := lines } } := by
        cases hok
        rfl
      subst hm2
      exact export_all_sessions_some_ended _ lines hexp

/-- Witness for the third conjunct of `c9_serialize_iff_ended`: a commit on
`mE9` (one ended session, no pending buffer) completes and every remaining
session is ended. -/
theorem c9_witness :
    mE9.apply_changes_to_session = .ok mE9r ∧ ∀ s ∈ mE9r.sessions, s.end_ ≠ none :=
  ⟨rfl, c9_serialize_iff_ended.2.2 mE9 mE9r rfl⟩

/-! ## C10: startup tag import -/

/-- C10: at startup, tags are imported only when the sessions file yields at
least one parsed session. If the sessions log has no (non-empty) lines the
in-memory tag list stays empty whatever `tags.txt` contains; otherwise the
imported tag list is the tags file's non-empty lines, and the selected-tag
index is the (first) index of the last session's tag in that list. -/
theorem c10_startup_tag_import (db : Database) :
    (db.sessionsLines.filter (fun l => decide (l ≠ [])) = [] →
      (appManagerNew db).map (fun m => (m.tags, m.selected_tag_index, m.sessions)) =
        .ok ([], 0, [])) ∧
    (∀ m last, appManagerNew db = .ok m → m.sessions.getLast? = some last →
      m.tags = db.tagsLines.filter (fun l => decide (l ≠ [])) ∧
      m.tags.findIdx? (fun t => decide (t = last.tag)) = some m.selected_tag_index) := by
  constructor
  · intro h
    unfold appManagerNew
    rw [h]
    rfl
  · intro m last hok hlast
    unfold appManagerNew at hok
    cases hp : parse_sessions (db.sessionsLines.filter (fun l => decide (l ≠ []))) with
    | error e => rw [hp] at hok; exact absurd hok (by simp)
    | ok o =>
      rw [hp] at hok
      cases o with
      | none =>
        simp only [Except.ok.injEq] at hok
        subst hok
        simp at hlast
      | some sessions =>
        simp only [] at hok
        cases hl : sessions.getLast? with
        | none => rw [hl] at hok; exact absurd hok (by simp)
        | some lastS =>
          rw [hl] at hok
          simp only [AppManager.get_index_of_tag] at hok
          cases hi : (db.tagsLines.filter (fun l => decide (l ≠ []))).findIdx?
              (fun t => decide (t = lastS.tag)) with
          | none => rw [hi] at hok; exact absurd hok (by simp)
          | some i =>
            rw [hi] at hok
            simp only [Except.ok.injEq] at hok
            subst hok
            rw [hl] at hlast
            simp only [Option.some.injEq] at hlast
            subst hlast
            exact ⟨rfl, hi⟩

/-- Witness for `c10_startup_tag_import`: an empty store yields no tags, and
the store `dbW10` (one session line with tag `t`; tags file `t`, `u`) yields
the imported list with selection index 0, the index of `t`. -/
theorem c10_witness :
    ((appManagerNew emptyDatabase).map
        (fun m => (m.tags, m.selected_tag_index, m.sessions)) = .ok ([], 0, [])) ∧
    appManagerNew dbW10 = .ok mW10 ∧
    mW10.sessions.getLast? = some sSame ∧
    mW10.tags = dbW10.tagsLines.filter (fun l => decide (l ≠ [])) ∧
    mW10.tags.findIdx? (fun t => decide (t = sSame.tag)) = some mW10.selected_tag_index :=
  ⟨(c10_startup_tag_import emptyDatabase).1 rfl, rfl, rfl,
   ((c10_startup_tag_import dbW10).2 mW10 sSame rfl rfl).1,
   ((c10_startup_tag_import dbW10).2 mW10 sSame rfl rfl).2⟩
